import Mathlib

/-!
Shallow embedding of the `uow` package of `sesaquecruz/go-unit-of-work`
(`src/uow/uow.go`) together with proofs of its specified properties.

Modelling choices, line by line against the source:

* `RepositoryName` (`type RepositoryName string`) is `String`.
* Go maps are reference values: the `repositories` field of `UnitOfWork` and of
  `Transaction` holds a pointer to a map object, and `NewTransaction(tx,
  u.repositories)` (line 140) shares that pointer.  We model a map pointer as a
  `MapRef` (a natural number) into an explicit `Heap` of map objects, so that
  in-place mutation (`Register`, `Remove`) and pointer replacement (`Clear`,
  which executes `u.repositories = make(...)`) are distinguishable, exactly as
  in Go.
* A map object itself is an association list `Registry`; `regFind` is Go map
  lookup, consing is Go map insertion (`Register` only inserts absent keys, so
  no shadowing ever arises), `regDelete` is Go's `delete`.
* `RepositoryFactory` (`func(tx *sql.Tx) Repository`) may be effectful in Go,
  so it is modelled as `Tx → W → Repo × W`: it receives the transactional
  handle and threads an abstract world `W`.  Each syntactic call site of a
  factory in the source corresponds to exactly one application here, which
  makes "the factory is re-invoked on every lookup" a provable statement.
* `Repository` is `any` in Go; it is the abstract type parameter `Repo`.  The
  generic type assertion `repository.(T)` of `GetAs` is modelled by an
  arbitrary partial view `castT : Repo → Option T`.
* `sql.Tx` / `sql.DB` are external; `Do`'s interactions with them are modelled
  by a `DBEnv` giving the outcome of `BeginTx` and of `Commit`, and the body
  `fn` is an arbitrary function of the constructed `Transaction` scope whose
  outcome may be a value, an error, or a panic.  `Do` additionally records
  ghost counters of how often `fn`, `Commit` and the deferred `Rollback` were
  invoked, mirroring the source's control flow (lines 133-147) including Go's
  `defer` semantics: the deferred `tx.Rollback()` registered on line 138 runs
  on every exit path after a successful begin, also during panic unwinding,
  and is a no-op on an already committed `sql.Tx`.
-/

namespace Uow

/-- Opaque string identifier for repositories (`type RepositoryName string`). -/
abbrev RepositoryName := String

/-- A pointer to a Go map object, modelled as an index into a `Heap`. -/
abbrev MapRef := Nat

/-- `type RepositoryFactory func(tx *sql.Tx) Repository`, as a possibly
effectful constructor: given the transactional handle and the current world it
yields the constructed repository and the next world. -/
abbrev RepositoryFactory (Tx Repo W : Type) := Tx → W → Repo × W

/-- The contents of one Go map object `map[RepositoryName]RepositoryFactory`,
as an association list. -/
abbrev Registry (Tx Repo W : Type) := List (RepositoryName × RepositoryFactory Tx Repo W)

/-- Go map lookup `m[name]`: the first binding of the name, if any. -/
def regFind {Tx Repo W : Type} : Registry Tx Repo W → RepositoryName →
    Option (RepositoryFactory Tx Repo W)
  | [], _ => none
  | (m, f) :: rest, n => if n = m then some f else regFind rest n

/-- Go `delete(m, name)`: every binding of the name is removed. -/
def regDelete {Tx Repo W : Type} : Registry Tx Repo W → RepositoryName →
    Registry Tx Repo W
  | [], _ => []
  | (m, f) :: rest, n => if m = n then regDelete rest n else (m, f) :: regDelete rest n

/-- The store of allocated Go map objects: `next` is the next fresh pointer,
and `maps` gives the current contents of each pointer. -/
structure Heap (Tx Repo W : Type) where
  next : MapRef
  maps : MapRef → Registry Tx Repo W

/-- Read the map object a pointer refers to. -/
def Heap.read {Tx Repo W : Type} (h : Heap Tx Repo W) (r : MapRef) :
    Registry Tx Repo W :=
  h.maps r

/-- Overwrite in place the map object a pointer refers to (Go map mutation). -/
def Heap.write {Tx Repo W : Type} (h : Heap Tx Repo W) (r : MapRef)
    (reg : Registry Tx Repo W) : Heap Tx Repo W :=
  { h with maps := fun r' => if r' = r then reg else h.maps r' }

/-- Allocate a fresh map object (Go `make(map[...]...)`), returning its
pointer and the extended heap. -/
def Heap.alloc {Tx Repo W : Type} (h : Heap Tx Repo W)
    (reg : Registry Tx Repo W) : MapRef × Heap Tx Repo W :=
  (h.next,
   { next := h.next + 1,
     maps := fun r' => if r' = h.next then reg else h.maps r' })

/-- The package's sentinel errors (lines 13-17 of the source). -/
inductive UowErr where
  | ErrRepositoryNotRegistered
  | ErrRepositoryAlreadyRegistered
  | ErrInvalidRepositoryType
deriving DecidableEq, Repr

/-- `type Transaction struct`: the transactional handle together with the
pointer to the shared registry map (lines 38-41). -/
structure Transaction (Tx : Type) where
  tx : Tx
  repositories : MapRef

/-- `func NewTransaction` (lines 44-49). -/
def NewTransaction {Tx : Type} (tx : Tx) (repositories : MapRef) :
    Transaction Tx :=
  { tx := tx, repositories := repositories }

/-- `func (t *Transaction) Get` (lines 68-74): look the name up in the shared
map; on a hit apply the bound factory to the scope's handle, otherwise fail
with `ErrRepositoryNotRegistered`.  The heap is read at call time (the map is
shared), and the world is threaded through the factory call. -/
def Transaction.Get {Tx Repo W : Type} (t : Transaction Tx)
    (h : Heap Tx Repo W) (name : RepositoryName) (w : W) :
    Except UowErr Repo × W :=
  match regFind (h.read t.repositories) name with
  | some factory =>
      let rw := factory t.tx w
      (.ok rw.1, rw.2)
  | none => (.error .ErrRepositoryNotRegistered, w)

/-- `func GetAs[T any]` (lines 53-65): delegate to `Get`; on success apply the
type assertion `repository.(T)`, modelled by the view `castT`, failing with
`ErrInvalidRepositoryType` when the assertion does not hold. -/
def GetAs {Tx Repo W T : Type} (castT : Repo → Option T) (t : Transaction Tx)
    (h : Heap Tx Repo W) (name : RepositoryName) (w : W) :
    Except UowErr T × W :=
  let rw := Transaction.Get t h name w
  match rw.1 with
  | .error e => (.error e, rw.2)
  | .ok repo =>
      match castT repo with
      | some v => (.ok v, rw.2)
      | none => (.error .ErrInvalidRepositoryType, rw.2)

/-- `type UnitOfWork struct` (lines 77-80): the pointer to its registry map.
The `db *sql.DB` field is the external connection source; its behaviour enters
only through the `DBEnv` argument of `Do`. -/
structure UnitOfWork where
  repositories : MapRef

/-- `func NewUnitOfWork` (lines 83-88): allocate a fresh empty registry map. -/
def NewUnitOfWork {Tx Repo W : Type} (h : Heap Tx Repo W) :
    UnitOfWork × Heap Tx Repo W :=
  let (r, h') := h.alloc []
  ({ repositories := r }, h')

/-- `func (u *UnitOfWork) Register` (lines 92-99): fail if the name is bound,
otherwise insert the binding into the shared map in place. -/
def UnitOfWork.Register {Tx Repo W : Type} (u : UnitOfWork)
    (h : Heap Tx Repo W) (name : RepositoryName)
    (factory : RepositoryFactory Tx Repo W) :
    Option UowErr × Heap Tx Repo W :=
  match regFind (h.read u.repositories) name with
  | some _ => (some .ErrRepositoryAlreadyRegistered, h)
  | none => (none, h.write u.repositories ((name, factory) :: h.read u.repositories))

/-- `func (u *UnitOfWork) Remove` (lines 103-110): fail if the name is unbound,
otherwise delete the binding from the shared map in place. -/
def UnitOfWork.Remove {Tx Repo W : Type} (u : UnitOfWork)
    (h : Heap Tx Repo W) (name : RepositoryName) :
    Option UowErr × Heap Tx Repo W :=
  match regFind (h.read u.repositories) name with
  | none => (some .ErrRepositoryNotRegistered, h)
  | some _ => (none, h.write u.repositories (regDelete (h.read u.repositories) name))

/-- `func (u *UnitOfWork) Has` (lines 114-117). -/
def UnitOfWork.Has {Tx Repo W : Type} (u : UnitOfWork) (h : Heap Tx Repo W)
    (name : RepositoryName) : Bool :=
  (regFind (h.read u.repositories) name).isSome

/-- `func (u *UnitOfWork) Clear` (lines 120-122): assign a brand new empty map
to the `repositories` field; existing map objects are not mutated. -/
def UnitOfWork.Clear {Tx Repo W : Type} (u : UnitOfWork) (h : Heap Tx Repo W) :
    UnitOfWork × Heap Tx Repo W :=
  let (r, h') := h.alloc []
  ({ u with repositories := r }, h')

/-- Outcome of the caller-supplied unit-of-work function: normal return with
`nil`, normal return with an error, or a panic unwinding out of it. -/
inductive FnOutcome (E : Type) where
  | ok
  | err (e : E)
  | panicked
deriving DecidableEq, Repr

/-- Outcome of one `Do` call: a returned `error` value (`none` meaning `nil`),
or a panic propagating to the caller after the deferred cleanup ran. -/
inductive DoResult (E : Type) where
  | ret (r : Option E)
  | panicked
deriving DecidableEq, Repr

/-- Behaviour of the external database for one `Do` call: the result of
`db.BeginTx` and, per handle, the result of `tx.Commit` (`none` = success). -/
structure DBEnv (E Tx : Type) where
  beginTx : Except E Tx
  commitErr : Tx → Option E

/-- What one `Do` call did: its returned result plus ghost counters of how
many times `fn` was invoked, `tx.Commit` was attempted, whether the commit
succeeded, and how many times the deferred `tx.Rollback` ran. -/
structure DoRun (E : Type) where
  result : DoResult E
  fnCalls : Nat
  commitAttempts : Nat
  commitSucceeded : Bool
  rollbackAttempts : Nat
deriving DecidableEq, Repr

/-- A deferred `Rollback` on an already committed `sql.Tx` is a no-op (it
returns `sql.ErrTxDone` and undoes nothing), so the transaction was actually
rolled back iff a rollback ran and the commit did not succeed. -/
def DoRun.rolledBack {E : Type} (r : DoRun E) : Bool :=
  r.rollbackAttempts != 0 && !r.commitSucceeded

/-- `func (u *UnitOfWork) Do` (lines 133-147), with Go's `defer` unfolded on
each exit path.  Line by line: `BeginTx` failure returns the begin error at
once (lines 135-137), before the deferred rollback is registered and before
any scope is built; otherwise `defer tx.Rollback()` (line 138) makes every
later exit path, including panic unwinding out of `fn`, run one rollback
attempt; `fn` is invoked once with `NewTransaction(tx, u.repositories)`
(line 140); an error from `fn` is returned unchanged without committing
(lines 141-143); otherwise `tx.Commit()` is attempted once and its error value
is returned as is (lines 145-146). -/
def UnitOfWork.Do {E Tx : Type} (u : UnitOfWork) (env : DBEnv E Tx)
    (fn : Transaction Tx → FnOutcome E) : DoRun E :=
  match env.beginTx with
  | .error e =>
      { result := .ret (some e), fnCalls := 0, commitAttempts := 0,
        commitSucceeded := false, rollbackAttempts := 0 }
  | .ok tx =>
      match fn (NewTransaction tx u.repositories) with
      | .panicked =>
          { result := .panicked, fnCalls := 1, commitAttempts := 0,
            commitSucceeded := false, rollbackAttempts := 1 }
      | .err e =>
          { result := .ret (some e), fnCalls := 1, commitAttempts := 0,
            commitSucceeded := false, rollbackAttempts := 1 }
      | .ok =>
          match env.commitErr tx with
          | some ce =>
              { result := .ret (some ce), fnCalls := 1, commitAttempts := 1,
                commitSucceeded := false, rollbackAttempts := 1 }
          | none =>
              { result := .ret none, fnCalls := 1, commitAttempts := 1,
                commitSucceeded := true, rollbackAttempts := 1 }

/-! Concrete fixtures used to evaluate the theorems on closed inputs.  The
factory counts its invocations through the world `W := Nat`, returning the
handle it was given paired with a fresh instance number. -/

/-- A counting repository factory: instance `k` bound to handle `tx`. -/
def witFactory : RepositoryFactory Nat (Nat × Nat) Nat :=
  fun tx k => ((tx, k), k + 1)

/-- A heap whose map object `0` binds the name `user`; pointer `1` is fresh. -/
def witHeap : Heap Nat (Nat × Nat) Nat :=
  { next := 1, maps := fun r => if r = 0 then [("user", witFactory)] else [] }

/-- A unit of work whose registry is map object `0` of `witHeap`. -/
def witUow : UnitOfWork := { repositories := 0 }

/-- A database where begin yields handle `5` and commit succeeds. -/
def witEnvOk : DBEnv Nat Nat := { beginTx := .ok 5, commitErr := fun _ => none }

/-- A database where begin yields handle `5` and commit fails with error `9`. -/
def witEnvCommitFail : DBEnv Nat Nat :=
  { beginTx := .ok 5, commitErr := fun _ => some 9 }

/-- A database where begin fails with error `3`. -/
def witEnvBeginFail : DBEnv Nat Nat :=
  { beginTx := .error 3, commitErr := fun _ => none }

/-- A unit-of-work body returning the error `7`. -/
def wFnErr : Transaction Nat → FnOutcome Nat := fun _ => .err 7

/-- A unit-of-work body returning `nil`. -/
def wFnOk : Transaction Nat → FnOutcome Nat := fun _ => .ok

/-- A unit-of-work body that panics. -/
def wFnAbort : Transaction Nat → FnOutcome Nat := fun _ => .panicked

/-! Helper lemmas about the heap and registry operations. -/

/-- Reading a map pointer right after writing it yields the written contents. -/
theorem Heap.read_write_self {Tx Repo W : Type} (h : Heap Tx Repo W)
    (r : MapRef) (reg : Registry Tx Repo W) : (h.write r reg).read r = reg := by
  simp [Heap.read, Heap.write]

/-- After deleting a name from a registry, looking that name up fails. -/
theorem regFind_regDelete_self {Tx Repo W : Type} (reg : Registry Tx Repo W)
    (n : RepositoryName) : regFind (regDelete reg n) n = none := by
  induction reg with
  | nil => rfl
  | cons p rest ih =>
      obtain ⟨m, f⟩ := p
      by_cases hmn : m = n
      · simp [regDelete, hmn, ih]
      · have hnm : ¬n = m := fun hh => hmn hh.symm
        simp [regDelete, hmn, regFind, hnm, ih]

/-- C1: when the unit-of-work function returns a non-nil error, `Do` does not
attempt commit, the deferred rollback actually rolls the transaction back, and
the function's error is returned unchanged to the caller. -/
theorem do_fn_error_spec {E Tx : Type} (u : UnitOfWork) (env : DBEnv E Tx)
    (fn : Transaction Tx → FnOutcome E) (tx : Tx) (e : E)
    (hb : env.beginTx = .ok tx)
    (hf : fn (NewTransaction tx u.repositories) = .err e) :
    (u.Do env fn).result = .ret (some e) ∧
    (u.Do env fn).commitAttempts = 0 ∧
    (u.Do env fn).rolledBack = true := by
  simp [UnitOfWork.Do, hb, hf, DoRun.rolledBack]

/-- Evaluation of `do_fn_error_spec` on a closed input: the body's error `7`
comes back unchanged, no commit happens, the transaction rolls back. -/
theorem do_fn_error_spec_witness :
    (witUow.Do witEnvOk wFnErr).result = .ret (some 7) ∧
    (witUow.Do witEnvOk wFnErr).commitAttempts = 0 ∧
    (witUow.Do witEnvOk wFnErr).rolledBack = true :=
  do_fn_error_spec witUow witEnvOk wFnErr 5 7 rfl rfl

/-- C2: when the unit-of-work function returns nil, `Do` attempts commit
exactly once and returns exactly the commit outcome: `nil` when commit
succeeds, the commit error itself (unwrapped) when commit fails. -/
theorem do_fn_ok_commit_spec {E Tx : Type} (u : UnitOfWork) (env : DBEnv E Tx)
    (fn : Transaction Tx → FnOutcome E) (tx : Tx)
    (hb : env.beginTx = .ok tx)
    (hf : fn (NewTransaction tx u.repositories) = .ok) :
    (u.Do env fn).commitAttempts = 1 ∧
    (u.Do env fn).result = .ret (env.commitErr tx) := by
  cases hc : env.commitErr tx <;> simp [UnitOfWork.Do, hb, hf, hc]

/-- Evaluation of `do_fn_ok_commit_spec` on a closed input where commit fails
with error `9`: commit is attempted once and `9` is returned unwrapped. -/
theorem do_fn_ok_commit_spec_witness :
    (witUow.Do witEnvCommitFail wFnOk).commitAttempts = 1 ∧
    (witUow.Do witEnvCommitFail wFnOk).result = .ret (witEnvCommitFail.commitErr 5) :=
  do_fn_ok_commit_spec witUow witEnvCommitFail wFnOk 5 rfl rfl

/-- C3: whenever begin succeeds, the deferred rollback registered right after
begin runs on every exit path (the counter is 1 for every possible body,
including a panicking one); it actually rolls back exactly when commit has not
already succeeded, and is a no-op when commit succeeded; on a panicking body
the panic propagates after the rollback ran. -/
theorem do_rollback_guarantee_spec {E Tx : Type} (u : UnitOfWork)
    (env : DBEnv E Tx) (fn : Transaction Tx → FnOutcome E) (tx : Tx)
    (hb : env.beginTx = .ok tx) :
    (u.Do env fn).rollbackAttempts = 1 ∧
    ((u.Do env fn).commitSucceeded = false → (u.Do env fn).rolledBack = true) ∧
    ((u.Do env fn).commitSucceeded = true → (u.Do env fn).rolledBack = false) ∧
    (fn (NewTransaction tx u.repositories) = .panicked →
      (u.Do env fn).result = .panicked ∧ (u.Do env fn).rolledBack = true) := by
  cases hf : fn (NewTransaction tx u.repositories) with
  | ok => cases hc : env.commitErr tx <;>
      simp [UnitOfWork.Do, hb, hf, hc, DoRun.rolledBack]
  | err e => simp [UnitOfWork.Do, hb, hf, DoRun.rolledBack]
  | panicked => simp [UnitOfWork.Do, hb, hf, DoRun.rolledBack]

/-- Evaluation of `do_rollback_guarantee_spec` on a closed input with a
panicking body: the rollback runs once and the transaction rolls back. -/
theorem do_rollback_guarantee_spec_witness :
    (witUow.Do witEnvOk wFnAbort).rollbackAttempts = 1 ∧
    (witUow.Do witEnvOk wFnAbort).result = .panicked ∧
    (witUow.Do witEnvOk wFnAbort).rolledBack = true :=
  ⟨(do_rollback_guarantee_spec witUow witEnvOk wFnAbort 5 rfl).1,
   (do_rollback_guarantee_spec witUow witEnvOk wFnAbort 5 rfl).2.2.2 rfl⟩

/-- C4: when beginning the transaction fails, `Do` returns the begin error as
is; the body is never invoked (so no scope is ever constructed, since the only
scope construction site is the invocation of the body), and neither commit nor
rollback is attempted. -/
theorem do_begin_error_spec {E Tx : Type} (u : UnitOfWork) (env : DBEnv E Tx)
    (fn : Transaction Tx → FnOutcome E) (e : E)
    (hb : env.beginTx = .error e) :
    (u.Do env fn).result = .ret (some e) ∧
    (u.Do env fn).fnCalls = 0 ∧
    (u.Do env fn).commitAttempts = 0 ∧
    (u.Do env fn).rollbackAttempts = 0 := by
  simp [UnitOfWork.Do, hb]

/-- Evaluation of `do_begin_error_spec` on a closed input: begin error `3` is
returned and nothing else happens. -/
theorem do_begin_error_spec_witness :
    (witUow.Do witEnvBeginFail wFnOk).result = .ret (some 3) ∧
    (witUow.Do witEnvBeginFail wFnOk).fnCalls = 0 ∧
    (witUow.Do witEnvBeginFail wFnOk).commitAttempts = 0 ∧
    (witUow.Do witEnvBeginFail wFnOk).rollbackAttempts = 0 :=
  do_begin_error_spec witUow witEnvBeginFail wFnOk 3 rfl

/-- C5: `Get` on a name bound in the scope's shared map invokes the bound
factory with the scope's transactional handle and returns exactly the
factory's result; on an unbound name it fails with
`ErrRepositoryNotRegistered`.  The universal quantification over the world `w`
makes the no-caching behaviour explicit, and the last conjunct spells it out:
a second `Get` of the same name runs in the world left by the first and
re-invokes the factory there, again with the same handle, so the two calls
yield two independently constructed instances. -/
theorem transaction_get_spec {Tx Repo W : Type} (t : Transaction Tx)
    (h : Heap Tx Repo W) (n : RepositoryName) (w : W) :
    (∀ f, regFind (h.read t.repositories) n = some f →
        Transaction.Get t h n w = (.ok (f t.tx w).1, (f t.tx w).2)) ∧
    (regFind (h.read t.repositories) n = none →
        Transaction.Get t h n w = (.error .ErrRepositoryNotRegistered, w)) ∧
    (∀ f, regFind (h.read t.repositories) n = some f →
        Transaction.Get t h n ((Transaction.Get t h n w).2) =
          (.ok (f t.tx (f t.tx w).2).1, (f t.tx (f t.tx w).2).2)) := by
  refine ⟨fun f hf => ?_, fun hf => ?_, fun f hf => ?_⟩ <;>
    simp [Transaction.Get, hf]

/-- Evaluation of `transaction_get_spec` on a closed input: two successive
lookups of `user` in the same scope (handle `5`) construct the distinct
instances `(5, 0)` and `(5, 1)`, both bound to handle `5`, and a lookup of an
unbound name fails. -/
theorem transaction_get_spec_witness :
    Transaction.Get (NewTransaction 5 0) witHeap "user" 0 = (.ok (5, 0), 1) ∧
    Transaction.Get (NewTransaction 5 0) witHeap "user"
      ((Transaction.Get (NewTransaction 5 0) witHeap "user" 0).2) =
      (.ok (5, 1), 2) ∧
    Transaction.Get (NewTransaction 5 0) witHeap "order" 0 =
      (.error .ErrRepositoryNotRegistered, 0) ∧
    ((5, 0) : Nat × Nat) ≠ (5, 1) :=
  ⟨(transaction_get_spec (NewTransaction 5 0) witHeap "user" 0).1 witFactory rfl,
   (transaction_get_spec (NewTransaction 5 0) witHeap "user" 0).2.2 witFactory rfl,
   (transaction_get_spec (NewTransaction 5 0) witHeap "order" 0).2.1 rfl,
   by decide⟩

/-- C6: registering an unused name succeeds and makes `Has` true for it;
registering an already bound name fails with `ErrRepositoryAlreadyRegistered`
and leaves the heap, hence the existing binding, completely unchanged. -/
theorem register_spec {Tx Repo W : Type} (u : UnitOfWork) (h : Heap Tx Repo W)
    (n : RepositoryName) (f : RepositoryFactory Tx Repo W) :
    (u.Has h n = false →
        (u.Register h n f).1 = none ∧
        UnitOfWork.Has u (u.Register h n f).2 n = true) ∧
    (u.Has h n = true →
        u.Register h n f = (some .ErrRepositoryAlreadyRegistered, h)) := by
  cases hrf : regFind (h.read u.repositories) n with
  | none =>
      refine ⟨fun _ => ⟨?_, ?_⟩, fun hPresent => ?_⟩
      · simp [UnitOfWork.Register, hrf]
      · simp [UnitOfWork.Has, UnitOfWork.Register, hrf, Heap.read_write_self,
          regFind]
      · simp [UnitOfWork.Has, hrf] at hPresent
  | some f₀ =>
      refine ⟨fun hAbsent => ?_, fun _ => ?_⟩
      · simp [UnitOfWork.Has, hrf] at hAbsent
      · simp [UnitOfWork.Register, hrf]

/-- Evaluation of `register_spec` on closed inputs: registering the fresh name
`order` succeeds and makes it present, re-registering `user` fails and leaves
the heap untouched. -/
theorem register_spec_witness :
    ((witUow.Register witHeap "order" witFactory).1 = none ∧
      UnitOfWork.Has witUow (witUow.Register witHeap "order" witFactory).2
        "order" = true) ∧
    witUow.Register witHeap "user" witFactory =
      (some .ErrRepositoryAlreadyRegistered, witHeap) :=
  ⟨(register_spec witUow witHeap "order" witFactory).1 rfl,
   (register_spec witUow witHeap "user" witFactory).2 rfl⟩

/-- C7: `GetAs` behaves exactly as `Get`: an unbound name fails with
`ErrRepositoryNotRegistered`; a bound name whose constructed repository cannot
be viewed at the requested type fails with `ErrInvalidRepositoryType`, and one
that can yields the viewed value; in every case the resulting world is the one
`Get` itself produces, so the typed layer adds no state change of its own (and
the scope's handle, held in the immutable `Transaction`, is untouched). -/
theorem getAs_spec {Tx Repo W T : Type} (castT : Repo → Option T)
    (t : Transaction Tx) (h : Heap Tx Repo W) (n : RepositoryName) (w : W) :
    (regFind (h.read t.repositories) n = none →
        GetAs castT t h n w = (.error .ErrRepositoryNotRegistered, w)) ∧
    (∀ f, regFind (h.read t.repositories) n = some f →
        (castT (f t.tx w).1 = none →
            GetAs castT t h n w =
              (.error .ErrInvalidRepositoryType, (f t.tx w).2)) ∧
        (∀ v, castT (f t.tx w).1 = some v →
            GetAs castT t h n w = (.ok v, (f t.tx w).2))) ∧
    (GetAs castT t h n w).2 = (Transaction.Get t h n w).2 := by
  refine ⟨fun hf => ?_, fun f hf => ⟨fun hc => ?_, fun v hc => ?_⟩, ?_⟩
  · simp [GetAs, Transaction.Get, hf]
  · simp [GetAs, Transaction.Get, hf, hc]
  · simp [GetAs, Transaction.Get, hf, hc]
  · cases hf : regFind (h.read t.repositories) n with
    | none => simp [GetAs, Transaction.Get, hf]
    | some f =>
        cases hc : castT (f t.tx w).1 <;>
          simp [GetAs, Transaction.Get, hf, hc]

/-- Evaluation of `getAs_spec` on closed inputs: an unbound name fails with
`ErrRepositoryNotRegistered`, a failing view on `user` gives
`ErrInvalidRepositoryType`, a succeeding view returns the viewed instance. -/
theorem getAs_spec_witness :
    GetAs (fun _ => (none : Option Nat)) (NewTransaction 5 0) witHeap
      "order" 0 = (.error .ErrRepositoryNotRegistered, 0) ∧
    GetAs (fun _ => (none : Option Nat)) (NewTransaction 5 0) witHeap
      "user" 0 = (.error .ErrInvalidRepositoryType, 1) ∧
    GetAs (fun p => some p.1) (NewTransaction 5 0) witHeap
      "user" 0 = (.ok 5, 1) :=
  ⟨(getAs_spec (fun _ => (none : Option Nat)) (NewTransaction 5 0) witHeap
      "order" 0).1 rfl,
   ((getAs_spec (fun _ => (none : Option Nat)) (NewTransaction 5 0) witHeap
      "user" 0).2.1 witFactory rfl).1 rfl,
   ((getAs_spec (fun p => some p.1) (NewTransaction 5 0) witHeap
      "user" 0).2.1 witFactory rfl).2 5 rfl⟩

/-- C8: removing a present name succeeds and deletes the binding, so `Has`
becomes false for it; removing an absent name fails with
`ErrRepositoryNotRegistered` and leaves the heap, hence the registry,
unchanged. -/
theorem remove_spec {Tx Repo W : Type} (u : UnitOfWork) (h : Heap Tx Repo W)
    (n : RepositoryName) :
    (u.Has h n = true →
        (u.Remove h n).1 = none ∧
        UnitOfWork.Has u (u.Remove h n).2 n = false) ∧
    (u.Has h n = false →
        u.Remove h n = (some .ErrRepositoryNotRegistered, h)) := by
  cases hrf : regFind (h.read u.repositories) n with
  | none =>
      refine ⟨fun hPresent => ?_, fun _ => ?_⟩
      · simp [UnitOfWork.Has, hrf] at hPresent
      · simp [UnitOfWork.Remove, hrf]
  | some f₀ =>
      refine ⟨fun _ => ⟨?_, ?_⟩, fun hAbsent => ?_⟩
      · simp [UnitOfWork.Remove, hrf]
      · simp [UnitOfWork.Has, UnitOfWork.Remove, hrf, Heap.read_write_self,
          regFind_regDelete_self]
      · simp [UnitOfWork.Has, hrf] at hAbsent

/-- Evaluation of `remove_spec` on closed inputs: removing `user` succeeds and
afterwards `user` is absent, removing `order` fails without touching the
heap. -/
theorem remove_spec_witness :
    ((witUow.Remove witHeap "user").1 = none ∧
      UnitOfWork.Has witUow (witUow.Remove witHeap "user").2 "user" = false) ∧
    witUow.Remove witHeap "order" = (some .ErrRepositoryNotRegistered, witHeap) :=
  ⟨(remove_spec witUow witHeap "user").1 rfl,
   (remove_spec witUow witHeap "order").2 rfl⟩

/-- C9: `Clear` is total (it never fails) and unconditionally empties the
registry: afterwards `Has` is false for every name, and the registry is still
usable, since registering any name with any factory then succeeds. -/
theorem clear_spec {Tx Repo W : Type} (u : UnitOfWork) (h : Heap Tx Repo W) :
    (∀ n, UnitOfWork.Has (u.Clear h).1 (u.Clear h).2 n = false) ∧
    (∀ n (f : RepositoryFactory Tx Repo W),
        (UnitOfWork.Register (u.Clear h).1 (u.Clear h).2 n f).1 = none) := by
  refine ⟨fun n => ?_, fun n f => ?_⟩ <;>
    simp [UnitOfWork.Clear, Heap.alloc, Heap.read, UnitOfWork.Has,
      UnitOfWork.Register, regFind]

/-- C10: a scope created before `Clear` is unaffected by it, because `Clear`
installs a fresh map object instead of mutating the shared one: every lookup
through the old scope returns exactly what it returned before the `Clear` (in
particular every name bound at scope creation still resolves).  By contrast,
`Register` and `Remove` mutate the shared map object in place, so they are
visible to the existing scope: after a successful `Register` of a fresh name
the scope resolves it with the new factory, and after a successful `Remove`
the scope no longer resolves the removed name. -/
theorem clear_scope_frame_spec {Tx Repo W : Type} (u : UnitOfWork)
    (h : Heap Tx Repo W) (tx : Tx) (hv : u.repositories < h.next) :
    (∀ n (w : W),
        Transaction.Get (NewTransaction tx u.repositories) (u.Clear h).2 n w =
          Transaction.Get (NewTransaction tx u.repositories) h n w) ∧
    (∀ n (f : RepositoryFactory Tx Repo W) (w : W), u.Has h n = false →
        Transaction.Get (NewTransaction tx u.repositories)
            (u.Register h n f).2 n w = (.ok (f tx w).1, (f tx w).2)) ∧
    (∀ n (w : W), u.Has h n = true →
        Transaction.Get (NewTransaction tx u.repositories)
            (u.Remove h n).2 n w = (.error .ErrRepositoryNotRegistered, w)) := by
  have hne : u.repositories ≠ h.next := Nat.ne_of_lt hv
  refine ⟨fun n w => ?_, fun n f w hAbsent => ?_, fun n w hPresent => ?_⟩
  · simp [Transaction.Get, NewTransaction, UnitOfWork.Clear, Heap.alloc,
      Heap.read, hne]
  · cases hrf : regFind (h.read u.repositories) n with
    | some f₀ => simp [UnitOfWork.Has, hrf] at hAbsent
    | none =>
        simp [Transaction.Get, NewTransaction, UnitOfWork.Register, hrf,
          Heap.read_write_self, regFind]
  · cases hrf : regFind (h.read u.repositories) n with
    | none => simp [UnitOfWork.Has, hrf] at hPresent
    | some f₀ =>
        simp [Transaction.Get, NewTransaction, UnitOfWork.Remove, hrf,
          Heap.read_write_self, regFind_regDelete_self]

/-- Evaluation of `clear_scope_frame_spec` on closed inputs: after a `Clear`,
a previously created scope still resolves `user`; a `Register` of `order` and
a `Remove` of `user` done after scope creation are both visible to it. -/
theorem clear_scope_frame_spec_witness :
    Transaction.Get (NewTransaction 5 0) (witUow.Clear witHeap).2 "user" 0 =
      Transaction.Get (NewTransaction 5 0) witHeap "user" 0 ∧
    Transaction.Get (NewTransaction 5 0)
      (witUow.Register witHeap "order" witFactory).2 "order" 0 =
      (.ok (5, 0), 1) ∧
    Transaction.Get (NewTransaction 5 0) (witUow.Remove witHeap "user").2
      "user" 0 = (.error .ErrRepositoryNotRegistered, 0) :=
  ⟨(clear_scope_frame_spec witUow witHeap 5 (by decide)).1 "user" 0,
   (clear_scope_frame_spec witUow witHeap 5 (by decide)).2.1 "order"
     witFactory 0 rfl,
   (clear_scope_frame_spec witUow witHeap 5 (by decide)).2.2 "user" 0 rfl⟩

end Uow
